import Mathlib

/- Verification of the bare-metal RISC-V boot core in kernel.c: the SBI
   call gateway sbi_call, the console primitive putchar, the bss-zeroing
   memset, the boot trampoline and the kernel_main control flow, shallowly
   embedded as executable Lean definitions. Machine words are modelled as
   Int, byte-addressed memory as a function from Nat to byte values, and
   the firmware on the other side of the ecall trap as an uninterpreted
   function parameter. -/

namespace Kernel

/-- Byte-addressed memory: each address holds one byte value. -/
abbrev Mem : Type := Nat → Nat

/-- The loop of memset: while (n--) *ptr++ = c. Each store truncates the
fill value to a byte, as the uint8_t store in the source does. -/
def memsetLoop (c : Nat) : Nat → Mem → Nat → Mem
  | 0, mem, _ => mem
  | n + 1, mem, ptr =>
      memsetLoop c n (fun a => if a = ptr then c % 256 else mem a) (ptr + 1)

/-- memset(buf, c, n): writes the byte c to buf, buf+1, ..., buf+n-1 and
returns its first argument buf together with the updated memory. -/
def memset (mem : Mem) (buf : Nat) (c : Nat) (n : Nat) : Nat × Mem :=
  (buf, memsetLoop c n mem buf)

/-- The standard SBI return pair: error code from a0 and value from a1. -/
structure sbiret where
  error : Int
  value : Int
  deriving DecidableEq

/-- The registers named by the SBI calling convention, together with the
stack pointer and the remaining architectural registers. -/
structure RegFile where
  a0 : Int
  a1 : Int
  a2 : Int
  a3 : Int
  a4 : Int
  a5 : Int
  a6 : Int
  a7 : Int
  sp : Int
  other : Nat → Int

/-- A machine state: the register file and byte-addressed memory. -/
structure Machine where
  regs : RegFile
  mem : Mem

/-- The firmware behind the ecall trap: from the machine state at the
trap it produces the error code (left in a0), the value (left in a1),
and whatever memory state its side effects leave behind. -/
abbrev Firmware : Type := Machine → Int × Int × Mem

/-- The register setup of sbi_call: arg0..arg5 go to a0..a5, fid to a6,
eid to a7, exactly as the register-variable declarations in the source
bind them. -/
def sbiEntryRegs (s : Machine)
    (arg0 arg1 arg2 arg3 arg4 arg5 fid eid : Int) : Machine :=
  { s with
    regs := { s.regs with
              a0 := arg0, a1 := arg1, a2 := arg2, a3 := arg3,
              a4 := arg4, a5 := arg5, a6 := fid, a7 := eid } }

/-- The ecall trap: the firmware runs; afterwards a0 holds the error
code, a1 holds the value, memory is whatever the firmware left behind,
and every other register is untouched. -/
def ecall (fw : Firmware) (s : Machine) : Machine :=
  { regs := { s.regs with a0 := (fw s).1, a1 := (fw s).2.1 },
    mem := (fw s).2.2 }

/-- sbi_call: set up the eight argument registers, issue ecall, and read
a0 and a1 back as the sbiret pair. -/
def sbi_call (fw : Firmware) (s : Machine)
    (arg0 arg1 arg2 arg3 arg4 arg5 fid eid : Int) : sbiret × Machine :=
  let s1 := sbiEntryRegs s arg0 arg1 arg2 arg3 arg4 arg5 fid eid
  let s2 := ecall fw s1
  ({ error := s2.regs.a0, value := s2.regs.a1 }, s2)

/-- One invocation of the call gateway, as seen on the firmware side:
the selected extension, the selected function, and the six argument
words. -/
structure SbiEvent where
  eid : Int
  fid : Int
  arg0 : Int
  arg1 : Int
  arg2 : Int
  arg3 : Int
  arg4 : Int
  arg5 : Int
  deriving DecidableEq

/-- The call-trace view of sbi_call: the gateway event a given argument
list produces. -/
def sbi_call_ev (arg0 arg1 arg2 arg3 arg4 arg5 fid eid : Int) : SbiEvent :=
  { eid := eid, fid := fid, arg0 := arg0, arg1 := arg1, arg2 := arg2,
    arg3 := arg3, arg4 := arg4, arg5 := arg5 }

/-- putchar(ch) issues the single call sbi_call(ch, 0, 0, 0, 0, 0, 0, 1);
its trace is that one gateway event. -/
def putchar (ch : Int) : List SbiEvent :=
  [sbi_call_ev ch 0 0 0 0 0 0 1]

/-- putchar at the machine level: performs the sbi_call and discards the
returned sbiret, keeping only the machine state. -/
def putchar_m (fw : Firmware) (s : Machine) (ch : Int) : Machine :=
  (sbi_call fw s ch 0 0 0 0 0 0 1).2

/-- The character-printing loop of kernel_main: putchar on each byte of
the string, in order, until the terminator. -/
def printString : List Int → List SbiEvent
  | [] => []
  | ch :: rest => putchar ch ++ printString rest

/-- The bytes of the string literal kernel_main prints through its
putchar loop. -/
def helloStr : List Int :=
  [10, 10, 72, 101, 108, 108, 111, 32, 87, 111, 114, 108, 100, 33, 10]

/-- The observable steps kernel_main takes, in program order: a gateway
event, an opaque printk call (external formatted output), or the memset
of the bss region. -/
inductive KEvent
  | sbi (e : SbiEvent)
  | printkCall
  | bssZero
  deriving DecidableEq

/-- The event sequence of kernel_main before its idle loop, in source
order: the putchar loop over the string literal, the two printk calls,
then the memset of the bss region. -/
def kernelMainTrace : List KEvent :=
  (printString helloStr).map KEvent.sbi ++
    [KEvent.printkCall, KEvent.printkCall, KEvent.bssZero]

/-- Whether an event is console output through the legacy putchar
service (extension 1, function 0). -/
def isConsole : KEvent → Bool
  | KEvent.sbi e => e.eid == 1 && e.fid == 0
  | _ => false

/-- Whether an event is the zeroing of the bss region. -/
def isBssZero : KEvent → Bool
  | KEvent.bssZero => true
  | _ => false

/-- Control locations of kernel_main: the printing loop at index i, the
two printk calls, the memset of bss, the idle loop, and a location that
would stand for a return from kernel_main, which no step reaches. -/
inductive KPhase
  | printing (i : Nat)
  | printkOne
  | printkTwo
  | zeroingBss
  | idle
  | returned
  deriving DecidableEq

/-- Reading s[i] of a stored C string: indices past the literal read as
the terminating zero byte. -/
def strAt (s : List Int) (i : Nat) : Int := s.getD i 0

/-- One control step of kernel_main: the loop advances while s[i] is not
the terminator, the straight-line phases follow in source order, and
the final for(;;) wfi loop steps to itself. -/
def kstep : KPhase → KPhase
  | KPhase.printing i =>
      if strAt helloStr i = 0 then KPhase.printkOne else KPhase.printing (i + 1)
  | KPhase.printkOne => KPhase.printkTwo
  | KPhase.printkTwo => KPhase.zeroingBss
  | KPhase.zeroingBss => KPhase.idle
  | KPhase.idle => KPhase.idle
  | KPhase.returned => KPhase.returned

/-- kernel_main starts at the top of its printing loop. -/
def kinit : KPhase := KPhase.printing 0

/-- Whether a control location is the return from kernel_main. -/
def isReturned : KPhase → Bool
  | KPhase.returned => true
  | _ => false

/-- Code locations the boot trampoline can transfer control to. -/
inductive CodeLoc
  | bootLoc
  | kernelMainLoc
  deriving DecidableEq

/-- Machine state as the trampoline sees it: stack pointer, control
location, memory. -/
structure BootMachine where
  sp : Nat
  pc : CodeLoc
  mem : Mem

/-- The instructions the trampoline model distinguishes: writing the
stack-pointer register, a plain jump, and a stack push standing for any
stack-using instruction. -/
inductive BInstr
  | mvSp (v : Nat)
  | jmp (l : CodeLoc)
  | push (v : Nat)

/-- Executing one instruction. A push uses the stack: it moves sp down
and writes memory there; mv and j touch neither the stack pointer slot
of memory nor any other memory. -/
def bexec (s : BootMachine) : BInstr → BootMachine
  | BInstr.mvSp v => { s with sp := v }
  | BInstr.jmp l => { s with pc := l }
  | BInstr.push v =>
      { s with sp := s.sp - 4,
               mem := fun a => if a = s.sp - 4 then v % 256 else s.mem a }

/-- Whether an instruction reads or writes the stack. -/
def usesStack : BInstr → Bool
  | BInstr.mvSp _ => false
  | BInstr.jmp _ => false
  | BInstr.push _ => true

/-- The boot trampoline body: mv sp, stack_top followed by j kernel_main,
with the top-of-stack address supplied by the linker. -/
def boot (stackTop : Nat) : List BInstr :=
  [BInstr.mvSp stackTop, BInstr.jmp CodeLoc.kernelMainLoc]

/-- Running the trampoline from an arbitrary reset state. -/
def runBoot (stackTop : Nat) (s : BootMachine) : BootMachine :=
  (boot stackTop).foldl bexec s

/-- A memory image with every byte 0xFF. -/
def memFF : Mem := fun _ => 255

/-- A concrete machine state with all registers and all memory zero. -/
def machine0 : Machine :=
  { regs := { a0 := 0, a1 := 0, a2 := 0, a3 := 0, a4 := 0, a5 := 0,
              a6 := 0, a7 := 0, sp := 0, other := fun _ => 0 },
    mem := fun _ => 0 }

/-- A firmware that reports error code -2 with value 7 and leaves an
all-zero memory. -/
def fwErr : Firmware := fun _ => (-2, 7, fun _ => 0)

/-- Pointwise characterization of the memset loop: an address receives
the fill byte exactly when it lies in [ptr, ptr + n). -/
theorem memsetLoop_eq (c : Nat) :
    ∀ (n : Nat) (mem : Mem) (ptr a : Nat),
      memsetLoop c n mem ptr a =
        if ptr ≤ a ∧ a < ptr + n then c % 256 else mem a := by
  intro n
  induction n with
  | zero =>
      intro mem ptr a
      have h : ¬ (ptr ≤ a ∧ a < ptr + 0) := by omega
      simp only [memsetLoop, if_neg h]
  | succ n ih =>
      intro mem ptr a
      rw [memsetLoop, ih]
      split_ifs <;> first | rfl | (exfalso; omega)

/-- A step from a location other than returned never reaches returned. -/
theorem kstep_preserves_not_returned (p : KPhase)
    (h : isReturned p = false) : isReturned (kstep p) = false := by
  cases p with
  | printing i =>
      by_cases hc : strAt helloStr i = 0
      · simp [kstep, hc, isReturned]
      · simp [kstep, hc, isReturned]
  | printkOne => rfl
  | printkTwo => rfl
  | zeroingBss => rfl
  | idle => rfl
  | returned => exact h

/-- The idle loop is a fixed point of the control step. -/
theorem kstep_idle_fixed (m : Nat) : kstep^[m] KPhase.idle = KPhase.idle := by
  induction m with
  | zero => rfl
  | succ m ih => rw [Function.iterate_succ_apply', ih]; rfl

/-- Claim C1: sbi_call binds arg0..arg5 to the register slots a0..a5,
the function identifier to a6 and the extension identifier to a7; the
returned pair is exactly the contents of a0 and a1 after the trap; and
the stack pointer, the remaining registers and memory are exactly as
before the call except what the firmware itself changed. -/
theorem sbi_call_marshals_registers (fw : Firmware) (s : Machine)
    (arg0 arg1 arg2 arg3 arg4 arg5 fid eid : Int) :
    (sbiEntryRegs s arg0 arg1 arg2 arg3 arg4 arg5 fid eid).regs.a0 = arg0 ∧
    (sbiEntryRegs s arg0 arg1 arg2 arg3 arg4 arg5 fid eid).regs.a1 = arg1 ∧
    (sbiEntryRegs s arg0 arg1 arg2 arg3 arg4 arg5 fid eid).regs.a2 = arg2 ∧
    (sbiEntryRegs s arg0 arg1 arg2 arg3 arg4 arg5 fid eid).regs.a3 = arg3 ∧
    (sbiEntryRegs s arg0 arg1 arg2 arg3 arg4 arg5 fid eid).regs.a4 = arg4 ∧
    (sbiEntryRegs s arg0 arg1 arg2 arg3 arg4 arg5 fid eid).regs.a5 = arg5 ∧
    (sbiEntryRegs s arg0 arg1 arg2 arg3 arg4 arg5 fid eid).regs.a6 = fid ∧
    (sbiEntryRegs s arg0 arg1 arg2 arg3 arg4 arg5 fid eid).regs.a7 = eid ∧
    (sbi_call fw s arg0 arg1 arg2 arg3 arg4 arg5 fid eid).1.error =
      (ecall fw (sbiEntryRegs s arg0 arg1 arg2 arg3 arg4 arg5 fid eid)).regs.a0 ∧
    (sbi_call fw s arg0 arg1 arg2 arg3 arg4 arg5 fid eid).1.value =
      (ecall fw (sbiEntryRegs s arg0 arg1 arg2 arg3 arg4 arg5 fid eid)).regs.a1 ∧
    (sbi_call fw s arg0 arg1 arg2 arg3 arg4 arg5 fid eid).2.regs.sp = s.regs.sp ∧
    (sbi_call fw s arg0 arg1 arg2 arg3 arg4 arg5 fid eid).2.regs.other = s.regs.other ∧
    (sbi_call fw s arg0 arg1 arg2 arg3 arg4 arg5 fid eid).2.mem =
      (fw (sbiEntryRegs s arg0 arg1 arg2 arg3 arg4 arg5 fid eid)).2.2 :=
  ⟨rfl, rfl, rfl, rfl, rfl, rfl, rfl, rfl, rfl, rfl, rfl, rfl, rfl⟩

/-- Claim C2 is violated by the code: in kernel_main's event trace,
console output through the legacy putchar service occurs strictly
before the bss-zeroing memset, so Running-phase work precedes the
StorageZeroed phase. -/
theorem kernel_main_outputs_before_bss_zero :
    (kernelMainTrace.takeWhile (fun ev => !(isBssZero ev))).any isConsole = true ∧
    kernelMainTrace.any isBssZero = true := by
  refine ⟨by decide, by decide⟩

/-- Claim C3: memset with fill byte zero and length e - start leaves
every byte in [start, e) equal to zero, leaves every byte outside the
range unchanged, and on an empty range (start = e) writes nothing. -/
theorem memset_zeroes_range (mem : Mem) (start e : Nat) (h : start ≤ e) :
    (∀ a, start ≤ a → a < e → (memset mem start 0 (e - start)).2 a = 0) ∧
    (∀ a, a < start ∨ e ≤ a → (memset mem start 0 (e - start)).2 a = mem a) ∧
    (start = e → (memset mem start 0 (e - start)).2 = mem) := by
  refine ⟨?_, ?_, ?_⟩
  · intro a ha1 ha2
    show memsetLoop 0 (e - start) mem start a = 0
    rw [memsetLoop_eq, if_pos ⟨ha1, by omega⟩]
  · intro a ha
    show memsetLoop 0 (e - start) mem start a = mem a
    rw [memsetLoop_eq, if_neg (by omega)]
  · intro he
    funext a
    show memsetLoop 0 (e - start) mem start a = mem a
    rw [memsetLoop_eq, if_neg (by omega)]

/-- Witness for claim C3 at the concrete range [2, 5) over all-0xFF
memory. -/
theorem memset_zeroes_range_witness :
    2 ≤ 5 ∧
    ((∀ a, 2 ≤ a → a < 5 → (memset memFF 2 0 (5 - 2)).2 a = 0) ∧
     (∀ a, a < 2 ∨ 5 ≤ a → (memset memFF 2 0 (5 - 2)).2 a = memFF a) ∧
     (2 = 5 → (memset memFF 2 0 (5 - 2)).2 = memFF)) :=
  ⟨by decide, memset_zeroes_range memFF 2 5 (by decide)⟩

/-- Claim C4: putchar(ch) issues exactly one call-gateway invocation,
with extension id 1, function id 0, arg0 = ch and arg1..arg5 = 0, and
at the machine level keeps only the machine state, discarding the
returned sbiret. -/
theorem putchar_single_sbi_event (fw : Firmware) (s : Machine) (ch : Int) :
    putchar ch = [sbi_call_ev ch 0 0 0 0 0 0 1] ∧
    (putchar ch).length = 1 ∧
    (sbi_call_ev ch 0 0 0 0 0 0 1).eid = 1 ∧
    (sbi_call_ev ch 0 0 0 0 0 0 1).fid = 0 ∧
    (sbi_call_ev ch 0 0 0 0 0 0 1).arg0 = ch ∧
    (sbi_call_ev ch 0 0 0 0 0 0 1).arg1 = 0 ∧
    (sbi_call_ev ch 0 0 0 0 0 0 1).arg2 = 0 ∧
    (sbi_call_ev ch 0 0 0 0 0 0 1).arg3 = 0 ∧
    (sbi_call_ev ch 0 0 0 0 0 0 1).arg4 = 0 ∧
    (sbi_call_ev ch 0 0 0 0 0 0 1).arg5 = 0 ∧
    putchar_m fw s ch = (sbi_call fw s ch 0 0 0 0 0 0 1).2 :=
  ⟨rfl, rfl, rfl, rfl, rfl, rfl, rfl, rfl, rfl, rfl, rfl⟩

/-- Claim C5: the boot trampoline sets the stack pointer to the
linker-provided top-of-stack address, transfers control to kernel_main,
leaves memory untouched, and contains no stack-using instruction. -/
theorem boot_sets_sp_and_jumps (stackTop : Nat) (s : BootMachine) :
    (runBoot stackTop s).sp = stackTop ∧
    (runBoot stackTop s).pc = CodeLoc.kernelMainLoc ∧
    (runBoot stackTop s).mem = s.mem ∧
    (boot stackTop).all (fun i => !(usesStack i)) = true :=
  ⟨rfl, rfl, rfl, rfl⟩

/-- Claim C6: printing the three bytes of the sequence H, i, newline
issues exactly three gateway invocations, each with extension id 1 and
function id 0, with arg0 = 72, 105, 10 in that order. -/
theorem print_hi_newline_trace :
    printString [72, 105, 10] =
      [sbi_call_ev 72 0 0 0 0 0 0 1, sbi_call_ev 105 0 0 0 0 0 0 1,
       sbi_call_ev 10 0 0 0 0 0 0 1] ∧
    (printString [72, 105, 10]).length = 3 ∧
    (printString [72, 105, 10]).all (fun e => e.eid == 1 && e.fid == 0) = true := by
  refine ⟨by decide, by decide, by decide⟩

/-- Claim C7: whatever error code and value the firmware produces at the
trap, sbi_call returns them to its caller verbatim, with no inspection
or mapping, including any nonzero error code. -/
theorem sbi_call_propagates_error_verbatim (fw : Firmware) (s : Machine)
    (arg0 arg1 arg2 arg3 arg4 arg5 fid eid : Int) (e v : Int) (m : Mem)
    (h : fw (sbiEntryRegs s arg0 arg1 arg2 arg3 arg4 arg5 fid eid) = (e, v, m)) :
    (sbi_call fw s arg0 arg1 arg2 arg3 arg4 arg5 fid eid).1.error = e ∧
    (sbi_call fw s arg0 arg1 arg2 arg3 arg4 arg5 fid eid).1.value = v := by
  constructor
  · show (fw (sbiEntryRegs s arg0 arg1 arg2 arg3 arg4 arg5 fid eid)).1 = e
    rw [h]
  · show (fw (sbiEntryRegs s arg0 arg1 arg2 arg3 arg4 arg5 fid eid)).2.1 = v
    rw [h]

/-- Witness for claim C7: a firmware answering with the nonzero error
code -2 and value 7 has that pair surfaced verbatim. -/
theorem sbi_call_propagates_error_verbatim_witness :
    fwErr (sbiEntryRegs machine0 1 2 3 4 5 6 0 1) = (-2, 7, fun _ => 0) ∧
    ((sbi_call fwErr machine0 1 2 3 4 5 6 0 1).1.error = -2 ∧
     (sbi_call fwErr machine0 1 2 3 4 5 6 0 1).1.value = 7) :=
  ⟨rfl, sbi_call_propagates_error_verbatim fwErr machine0 1 2 3 4 5 6 0 1
    (-2) 7 (fun _ => 0) rfl⟩

/-- Claim C8: the bss-zeroing memset is idempotent: running it twice on
the same range produces exactly the memory produced by running it once. -/
theorem memset_idempotent (mem : Mem) (start e : Nat) (h : start ≤ e) :
    (memset (memset mem start 0 (e - start)).2 start 0 (e - start)).2 =
      (memset mem start 0 (e - start)).2 := by
  funext a
  show memsetLoop 0 (e - start) (memsetLoop 0 (e - start) mem start) start a =
    memsetLoop 0 (e - start) mem start a
  rw [memsetLoop_eq, memsetLoop_eq]
  split_ifs <;> rfl

/-- Witness for claim C8 at the concrete range [2, 5) over all-0xFF
memory. -/
theorem memset_idempotent_witness :
    2 ≤ 5 ∧
    (memset (memset memFF 2 0 (5 - 2)).2 2 0 (5 - 2)).2 =
      (memset memFF 2 0 (5 - 2)).2 :=
  ⟨by decide, memset_idempotent memFF 2 5 (by decide)⟩

/-- Claim C9: memset returns its original first argument buf, not the
advanced write cursor, while setting each of the n bytes starting at
buf to the fill byte c. -/
theorem memset_returns_buf (mem : Mem) (buf c n : Nat) (hc : c < 256) :
    (memset mem buf c n).1 = buf ∧
    (∀ i, i < n → (memset mem buf c n).2 (buf + i) = c) := by
  refine ⟨rfl, ?_⟩
  intro i hi
  show memsetLoop c n mem buf (buf + i) = c
  rw [memsetLoop_eq, if_pos ⟨by omega, by omega⟩, Nat.mod_eq_of_lt hc]

/-- Witness for claim C9: memset over all-0xFF memory at buf = 10 with
fill byte 7 and length 3 returns 10 and writes 7 to the three bytes. -/
theorem memset_returns_buf_witness :
    7 < 256 ∧
    ((memset memFF 10 7 3).1 = 10 ∧
     (∀ i, i < 3 → (memset memFF 10 7 3).2 (10 + i) = 7)) :=
  ⟨by decide, memset_returns_buf memFF 10 7 3 (by decide)⟩

/-- Claim C10: kernel_main never returns: no number of control steps
from its entry reaches the returned location, and from step 19 onward
the control location is forever the idle loop. -/
theorem kernel_main_never_returns :
    (∀ n : Nat, isReturned (kstep^[n] kinit) = false) ∧
    (∀ m : Nat, kstep^[m + 19] kinit = KPhase.idle) := by
  constructor
  · intro n
    induction n with
    | zero => rfl
    | succ n ih =>
        rw [Function.iterate_succ_apply']
        exact kstep_preserves_not_returned _ ih
  · intro m
    have h19 : kstep^[19] kinit = KPhase.idle := by decide
    rw [Function.iterate_add_apply, h19, kstep_idle_fixed]

end Kernel
